import Mathlib

/-!
Verification development for the `starred-repos` command-line tool
(`src/main.rs`).  The program fetches a user's starred repositories from
the GitHub API, caches the raw response body on disk under `cache/<user>`,
and either prints the repositories sorted by star count or exports them to
JSON / TOML files.

The Rust code is shallowly embedded: the filesystem, the environment
variable and the HTTP layer are modelled by an explicit `World`, and each
Rust function becomes a Lean function threading that state and returning a
list of observable events (network requests, log messages).
-/

namespace StarredRepos

/-- Embedding of `struct Repo` (src/main.rs lines 14-22): fields `name`,
`url` (serde-renamed from `html_url`), `description`, and `star_count`
(serde-renamed from `stargazers_count`, a `u64`).  The `u64` field is
modelled as `Nat`; values representable in Rust satisfy
`star_count < 2 ^ 64`, which appears as a hypothesis where it matters. -/
structure Repo where
  name : String
  url : String
  description : String
  star_count : Nat
deriving DecidableEq, Repr

/-- JSON values, for modelling `serde_json`. -/
inductive Json where
  | null
  | bool (b : Bool)
  | num (n : Int)
  | str (s : String)
  | arr (elems : List Json)
  | obj (fields : List (String × Json))
deriving Repr

/-- Whitespace characters accepted by the JSON grammar. -/
def isJsonWs : Char → Bool
  | ' ' | '\t' | '\n' | '\r' => true
  | _ => false

/-- Drops leading JSON whitespace. -/
def skipWs : List Char → List Char
  | [] => []
  | c :: cs => if isJsonWs c then skipWs cs else c :: cs

/-- Translation of a single-character JSON string escape (the character
after the backslash).  The `\uXXXX` form is not modelled (none of the
concrete inputs in this development use it). -/
def unescapeChar (c : Char) : Option Char :=
  let code := c.toNat
  if code == 34 || code == 92 || code == 47 then some c
  else if code == 110 then some '\n'
  else if code == 116 then some '\t'
  else if code == 114 then some '\r'
  else if code == 98 then some '\x08'
  else if code == 102 then some '\x0c'
  else none

/-- Parses the body of a JSON string literal (the opening quote already
consumed), returning the decoded string and the remaining input. -/
def parseStringBody : List Char → Option (String × List Char)
  | [] => none
  | c :: cs =>
    if c == '"' then some ("", cs)
    else if c == '\\' then
      match cs with
      | [] => none
      | e :: cs' =>
        match unescapeChar e with
        | some d =>
          match parseStringBody cs' with
          | some (s, rest) => some (String.mk (d :: s.data), rest)
          | none => none
        | none => none
    else
      match parseStringBody cs with
      | some (s, rest) => some (String.mk (c :: s.data), rest)
      | none => none

/-- Parses a maximal run of decimal digits. -/
def parseDigits : List Char → Nat → Option (Nat × List Char)
  | [], _ => none
  | c :: cs, acc =>
    if c.isDigit then
      match parseDigits cs (acc * 10 + (c.toNat - 48)) with
      | some r => some r
      | none => some (acc * 10 + (c.toNat - 48), cs)
    else none

/-- Parses a JSON integer (optional leading minus).  Fractions and
exponents are not modelled: the only numeric field this program consumes
is the integral `stargazers_count`. -/
def parseNumber (cs : List Char) : Option (Int × List Char) :=
  match cs with
  | '-' :: rest =>
    match parseDigits rest 0 with
    | some (n, rest') => some (-(n : Int), rest')
    | none => none
  | _ =>
    match parseDigits cs 0 with
    | some (n, rest') => some ((n : Int), rest')
    | none => none

/-- Checks that `pre` is a literal prefix of the input, returning the
remainder. -/
def dropLit : List Char → List Char → Option (List Char)
  | [], cs => some cs
  | _, [] => none
  | p :: ps, c :: cs => if p == c then dropLit ps cs else none

mutual

/-- Fuel-indexed JSON value parser (model of the `serde_json` text
grammar, restricted as noted above). -/
def parseVal : Nat → List Char → Option (Json × List Char)
  | 0, _ => none
  | fuel + 1, cs =>
    match skipWs cs with
    | [] => none
    | c :: rest =>
      if c == '"' then
        match parseStringBody rest with
        | some (s, rest') => some (.str s, rest')
        | none => none
      else if c == '\x7b' then
        match skipWs rest with
        | '\x7d' :: rest' => some (.obj [], rest')
        | rest' =>
          match parseObjFields fuel rest' with
          | some (fs, rest'') => some (.obj fs, rest'')
          | none => none
      else if c == '[' then
        match skipWs rest with
        | ']' :: rest' => some (.arr [], rest')
        | rest' =>
          match parseArrElems fuel rest' with
          | some (es, rest'') => some (.arr es, rest'')
          | none => none
      else if c == 't' then
        match dropLit ['r', 'u', 'e'] rest with
        | some rest' => some (.bool true, rest')
        | none => none
      else if c == 'f' then
        match dropLit ['a', 'l', 's', 'e'] rest with
        | some rest' => some (.bool false, rest')
        | none => none
      else if c == 'n' then
        match dropLit ['u', 'l', 'l'] rest with
        | some rest' => some (.null, rest')
        | none => none
      else
        match parseNumber (c :: rest) with
        | some (n, rest') => some (.num n, rest')
        | none => none

/-- Parses one or more comma-separated array elements (terminating `]`
consumed). -/
def parseArrElems : Nat → List Char → Option (List Json × List Char)
  | 0, _ => none
  | fuel + 1, cs =>
    match parseVal fuel cs with
    | some (j, rest) =>
      match skipWs rest with
      | ',' :: rest' =>
        match parseArrElems fuel rest' with
        | some (js, rest'') => some (j :: js, rest'')
        | none => none
      | ']' :: rest' => some ([j], rest')
      | _ => none
    | none => none

/-- Parses one or more comma-separated `"key": value` object members
(terminating close brace consumed). -/
def parseObjFields : Nat → List Char → Option (List (String × Json) × List Char)
  | 0, _ => none
  | fuel + 1, cs =>
    match skipWs cs with
    | '"' :: rest =>
      match parseStringBody rest with
      | some (k, rest') =>
        match skipWs rest' with
        | ':' :: rest'' =>
          match parseVal fuel rest'' with
          | some (v, rest₃) =>
            match skipWs rest₃ with
            | ',' :: rest₄ =>
              match parseObjFields fuel rest₄ with
              | some (fs, rest₅) => some ((k, v) :: fs, rest₅)
              | none => none
            | '\x7d' :: rest₄ => some ([(k, v)], rest₄)
            | _ => none
          | none => none
        | _ => none
      | none => none
    | _ => none

end

/-- Parses a complete JSON document (value plus trailing whitespace).
The fuel `s.length + 1` dominates the nesting depth of any input. -/
def jsonParse (s : String) : Option Json :=
  match parseVal (s.length + 1) s.data with
  | some (j, rest) => if (skipWs rest).isEmpty then some j else none
  | none => none

/-- Error categories of the modelled `serde_json` deserializer. -/
inductive DeErr where
  | malformed
  | notAnObject
  | notAnArray
  | missingField (key : String)
  | invalidType (key : String)
deriving DecidableEq, Repr

/-- Looks up the first occurrence of `key` among an object's members. -/
def lookupField (fields : List (String × Json)) (key : String) : Option Json :=
  match fields with
  | [] => none
  | (k, v) :: rest => if k == key then some v else lookupField rest key

/-- Extracts a required string-typed field, as serde does for a `String`
struct member: absent keys and non-string values (including `null`) are
errors. -/
def getStrField (fields : List (String × Json)) (key : String) : Except DeErr String :=
  match lookupField fields key with
  | some (.str s) => .ok s
  | some _ => .error (.invalidType key)
  | none => .error (.missingField key)

/-- Extracts a required `u64`-typed field: the value must be an integer in
`[0, 2^64)`. -/
def getU64Field (fields : List (String × Json)) (key : String) : Except DeErr Nat :=
  match lookupField fields key with
  | some (.num n) =>
    if 0 ≤ n ∧ n < (2 : Int) ^ 64 then .ok n.toNat else .error (.invalidType key)
  | some _ => .error (.invalidType key)
  | none => .error (.missingField key)

/-- Deserialization of one `Repo` from a JSON value, following the serde
derive on the struct: the four required fields (with `html_url` and
`stargazers_count` renames), unknown fields ignored.  Serde checks fields
in input order and rejects duplicate keys; this model checks them in
struct order and reads the first occurrence, which agrees with serde on
which inputs succeed (up to duplicate-key inputs, which this program
never produces). -/
def decodeRepo (j : Json) : Except DeErr Repo :=
  match j with
  | .obj fields =>
    match getStrField fields "name" with
    | .error e => .error e
    | .ok name =>
      match getStrField fields "html_url" with
      | .error e => .error e
      | .ok url =>
        match getStrField fields "description" with
        | .error e => .error e
        | .ok description =>
          match getU64Field fields "stargazers_count" with
          | .error e => .error e
          | .ok star_count => .ok ⟨name, url, description, star_count⟩
  | _ => .error .notAnObject

/-- Deserialization of a `Vec<Repo>`: elementwise, failing at the first
bad element, as serde does for sequences. -/
def decodeRepoList : List Json → Except DeErr (List Repo)
  | [] => .ok []
  | j :: rest =>
    match decodeRepo j with
    | .error e => .error e
    | .ok r =>
      match decodeRepoList rest with
      | .error e => .error e
      | .ok rs => .ok (r :: rs)

/-- Deserialization of a `Vec<Repo>` from a JSON value: the top level must
be an array. -/
def decodeRepos (j : Json) : Except DeErr (List Repo) :=
  match j with
  | .arr elems => decodeRepoList elems
  | _ => .error .notAnArray

/-- Model of `serde_json::from_str::<Vec<Repo>>`: parse the text, then
decode the value. -/
def from_str_repos (s : String) : Except DeErr (List Repo) :=
  match jsonParse s with
  | some j => decodeRepos j
  | none => .error .malformed

/-- Lower-case hexadecimal digit. -/
def hexDigit (n : Nat) : Char :=
  if n < 10 then Char.ofNat (48 + n) else Char.ofNat (87 + n)

/-- JSON string escaping as `serde_json` emits it: quote, backslash and
the common control shorthands, `\u00XX` for other control characters. -/
def escapeChar (c : Char) : List Char :=
  let code := c.toNat
  if code == 34 then '\\' :: '"' :: []
  else if code == 92 then '\\' :: '\\' :: []
  else if code == 10 then '\\' :: 'n' :: []
  else if code == 9 then '\\' :: 't' :: []
  else if code == 13 then '\\' :: 'r' :: []
  else if code == 8 then '\\' :: 'b' :: []
  else if code == 12 then '\\' :: 'f' :: []
  else if code < 32 then
    '\\' :: 'u' :: '0' :: '0' :: hexDigit (code / 16) :: hexDigit (code % 16) :: []
  else c :: []

/-- Escapes a string for inclusion in JSON output. -/
def escapeString (s : String) : String :=
  String.mk ((s.data.map escapeChar).flatten)

mutual

/-- Compact JSON rendering, as `serde_json::to_string` produces. -/
def Json.render : Json → String
  | .null => "null"
  | .bool b => cond b "true" "false"
  | .num n => toString n
  | .str s => "\"" ++ escapeString s ++ "\""
  | .arr elems => "[" ++ renderElems elems ++ "]"
  | .obj fields => "\x7b" ++ renderFields fields ++ "\x7d"

/-- Comma-separated rendering of array elements. -/
def renderElems : List Json → String
  | [] => ""
  | [j] => Json.render j
  | j :: rest => Json.render j ++ "," ++ renderElems rest

/-- Comma-separated rendering of object members. -/
def renderFields : List (String × Json) → String
  | [] => ""
  | [(k, v)] => "\"" ++ escapeString k ++ "\":" ++ Json.render v
  | (k, v) :: rest =>
    "\"" ++ escapeString k ++ "\":" ++ Json.render v ++ "," ++ renderFields rest

end

/-- Serialization of one `Repo` to JSON, following the serde derive and
the two `#[serde(rename = ...)]` attributes. -/
def encodeRepo (r : Repo) : Json :=
  .obj [("name", .str r.name), ("html_url", .str r.url),
        ("description", .str r.description),
        ("stargazers_count", .num (Int.ofNat r.star_count))]

/-- Serialization of a `Vec<Repo>` to JSON: a top-level array. -/
def encodeRepos (rs : List Repo) : Json :=
  .arr (rs.map encodeRepo)

/-- Model of `serde_json::to_string(&repos)`.  For these types
serialization never fails, but the Rust call site matches on a `Result`,
so the model keeps the `Except` shape. -/
def json_to_string (rs : List Repo) : Except Unit String :=
  .ok (Json.render (encodeRepos rs))

/-- TOML values (the shapes reachable from this program's data). -/
inductive TomlVal where
  | str (s : String)
  | int (n : Nat)
  | arr (elems : List TomlVal)
  | table (fields : List (String × TomlVal))
deriving Repr

/-- Serde serialization of one `Repo` as a TOML table. -/
def encodeRepoToml (r : Repo) : TomlVal :=
  .table [("name", .str r.name), ("html_url", .str r.url),
          ("description", .str r.description),
          ("stargazers_count", .int r.star_count)]

mutual

/-- Inline rendering of a TOML value (only reached for values inside a
top-level table, which this program never produces). -/
def TomlVal.renderInline : TomlVal → String
  | .str s => "\"" ++ escapeString s ++ "\""
  | .int n => toString n
  | .arr elems => "[" ++ renderTomlElems elems ++ "]"
  | .table fields => "\x7b" ++ renderTomlFields fields ++ "\x7d"

/-- Comma-separated inline array elements. -/
def renderTomlElems : List TomlVal → String
  | [] => ""
  | [v] => TomlVal.renderInline v
  | v :: rest => TomlVal.renderInline v ++ "," ++ renderTomlElems rest

/-- Comma-separated inline table members. -/
def renderTomlFields : List (String × TomlVal) → String
  | [] => ""
  | [(k, v)] => k ++ " = " ++ TomlVal.renderInline v
  | (k, v) :: rest => k ++ " = " ++ TomlVal.renderInline v ++ "," ++ renderTomlFields rest

end

/-- Rendering of a top-level table as `key = value` lines. -/
def renderTomlTable : List (String × TomlVal) → String
  | [] => ""
  | (k, v) :: rest => k ++ " = " ++ TomlVal.renderInline v ++ "\n" ++ renderTomlTable rest

/-- Modelled from the toml crate: `toml::to_string` can only emit a
document whose top level is a table, because the TOML format has no
root-level arrays; serializing any other root value (in particular the
`Vec<Repo>` sequence this program passes) returns an `UnsupportedType`
error.  The table branch below is unreachable from this program. -/
def tomlDocRender (v : TomlVal) : Except Unit String :=
  match v with
  | .table fields => .ok (renderTomlTable fields)
  | _ => .error ()

/-- Model of `toml::to_string(&repos)`: serde presents `Vec<Repo>` as a
root-level sequence, which the TOML serializer rejects. -/
def toml_to_string (rs : List Repo) : Except Unit String :=
  tomlDocRender (.arr (rs.map encodeRepoToml))

/-! ## The world model: filesystem, environment, HTTP -/

/-- Outcome of sending the HTTP GET request for a given URL. -/
inductive HttpOutcome where
  | noConnection
  | response (status : Nat) (body : String)
deriving Repr

/-- Filesystem state: the `cache` directory (absent, or present with its
files as an association list keyed by user name) and the other files the
program may write (export targets), keyed by path. -/
structure Fs where
  cacheFiles : Option (List (String × String))
  outFiles : List (String × String)
deriving Repr

/-- Ambient state and fault model for one program run: the filesystem,
the `GITHUB_ACCESS` environment variable, the network (a response per
URL), and fault-injection flags for the fallible filesystem calls
(`fs::write`, `fs::create_dir`, `fs::remove_dir_all`). -/
structure World where
  fs : Fs
  envToken : Option String
  http : String → HttpOutcome
  writeFails : Bool
  createDirFails : Bool
  removeFails : Bool

/-- Observable events: network requests sent, and the `println!` error
logs of the best-effort filesystem and serialization paths. -/
inductive Event where
  | netRequest (url : String)
  | logCreateCacheErr
  | logWriteCacheErr (user : String)
  | logClearErr
  | logWriteFileErr (path : String)
  | logSerializeTomlErr
  | logSerializeJsonErr
deriving DecidableEq, Repr

/-- Inserts or replaces a key in an association list (the effect of
`fs::write` on an existing directory). -/
def setEntry (m : List (String × String)) (k v : String) : List (String × String) :=
  match m with
  | [] => [(k, v)]
  | (k', v') :: rest => if k' == k then (k, v) :: rest else (k', v') :: setEntry rest k v

/-- Association-list lookup (the effect of `fs::read_to_string`). -/
def lookupEntry (m : List (String × String)) (k : String) : Option String :=
  match m with
  | [] => none
  | (k', v') :: rest => if k' == k then some v' else lookupEntry rest k

/-- Embedding of `write_cache` (src/main.rs lines 115-125): if
`fs::read_dir("cache")` fails the directory is created (failure logged),
then the body is written to `cache/<user>` (failure logged).  A write
also fails when the directory is still missing. -/
def write_cache (w : World) (user response : String) : Fs × List Event :=
  let fs := w.fs
  let step1 : Fs × List Event :=
    if fs.cacheFiles.isSome then (fs, [])
    else if w.createDirFails then (fs, [Event.logCreateCacheErr])
    else ({ fs with cacheFiles := some [] }, [])
  match step1.1.cacheFiles with
  | some files =>
    if w.writeFails then (step1.1, step1.2 ++ [Event.logWriteCacheErr user])
    else ({ step1.1 with cacheFiles := some (setEntry files user response) }, step1.2)
  | none => (step1.1, step1.2 ++ [Event.logWriteCacheErr user])

/-- Embedding of `get_cache` (src/main.rs lines 127-132):
`fs::read_to_string("cache/<user>")`, absence (of the directory or the
file) mapped to `None`. -/
def get_cache (fs : Fs) (user : String) : Option String :=
  match fs.cacheFiles with
  | some files => lookupEntry files user
  | none => none

/-- Embedding of `clear_cache` (src/main.rs lines 134-138):
`fs::remove_dir_all("cache")`, failure (including a missing directory)
logged. -/
def clear_cache (w : World) : Fs × List Event :=
  if w.removeFails || w.fs.cacheFiles.isNone then (w.fs, [Event.logClearErr])
  else ({ w.fs with cacheFiles := none }, [])

/-- The fixed templated endpoint of src/main.rs line 88. -/
def apiUrl (user : String) : String :=
  "https://api.github.com/users/" ++ user ++ "/starred?per_page=10"

/-- Model of `reqwest::StatusCode::is_success`: 2xx. -/
def isSuccessStatus (status : Nat) : Bool :=
  200 ≤ status && status < 300

/-- Error type of `get_starred_repos_for_user` (the `anyhow` error,
split by origin). -/
inductive GetErr where
  | missingToken
  | connection
  | badStatus (url : String) (status : Nat)
  | deserialize (e : DeErr)
deriving DecidableEq, Repr

/-- Embedding of the API-client section of `get_starred_repos_for_user`
(src/main.rs lines 87-108): build the GET request for the templated URL
with user-agent, accept and bearer-token headers, send it (connection
failure is an error), check `status().is_success()` (failure is an
error), and return the body text.  The token only feeds a header, so it
does not influence the modelled outcome; the event records that a
request was sent. -/
def fetch (w : World) (user _token : String) : Except GetErr String × List Event :=
  let url := apiUrl user
  match w.http url with
  | .noConnection => (.error .connection, [.netRequest url])
  | .response status body =>
    if isSuccessStatus status then (.ok body, [.netRequest url])
    else (.error (.badStatus url status), [.netRequest url])

/-- Result of `get_starred_repos_for_user`: the returned `Result`, the
filesystem afterwards, and the observable events in order. -/
structure GetResult where
  result : Except GetErr (List Repo)
  fs : Fs
  events : List Event
deriving Repr

/-- Embedding of `get_starred_repos_for_user` (src/main.rs lines 81-113):
cache hit deserializes and returns with no network traffic; otherwise the
token is read from the environment (missing is an error, before any
request), the request is sent, the raw body is written to the cache
(best effort) and then deserialized. -/
def get_starred_repos_for_user (w : World) (user : String) : GetResult :=
  match get_cache w.fs user with
  | some cached =>
    match from_str_repos cached with
    | .ok repos => ⟨.ok repos, w.fs, []⟩
    | .error e => ⟨.error (.deserialize e), w.fs, []⟩
  | none =>
    match w.envToken with
    | none => ⟨.error .missingToken, w.fs, []⟩
    | some tok =>
      match fetch w user tok with
      | (.error e, evs) => ⟨.error e, w.fs, evs⟩
      | (.ok body, evs) =>
        let written := write_cache w user body
        match from_str_repos body with
        | .ok repos => ⟨.ok repos, written.1, evs ++ written.2⟩
        | .error e => ⟨.error (.deserialize e), written.1, evs ++ written.2⟩

/-- Embedding of the file-export branch of `main` (src/main.rs lines
44-68): if a TOML path was given, serialize and write it (serialization
and write failures each logged, not raised); then likewise for JSON. -/
def export_repos (w : World) (repos : List Repo) (tomlPath jsonPath : Option String) :
    Fs × List Event :=
  let step1 : Fs × List Event :=
    match tomlPath with
    | some path =>
      match toml_to_string repos with
      | .ok s =>
        if w.writeFails then (w.fs, [Event.logWriteFileErr path])
        else ({ w.fs with outFiles := setEntry w.fs.outFiles path s }, [])
      | .error _ => (w.fs, [Event.logSerializeTomlErr])
    | none => (w.fs, [])
  match jsonPath with
  | some path =>
    match json_to_string repos with
    | .ok s =>
      if w.writeFails then (step1.1, step1.2 ++ [Event.logWriteFileErr path])
      else ({ step1.1 with outFiles := setEntry step1.1.outFiles path s }, step1.2)
    | .error _ => (step1.1, step1.2 ++ [Event.logSerializeJsonErr])
  | none => step1

/-- Comparison used by `list_repos` (src/main.rs line 143):
`Ord::cmp(&b.star_count, &a.star_count)` sorts ascending with respect to
the comparator, i.e. keeps `a` before `b` exactly when
`b.star_count ≤ a.star_count`. -/
def display_le (a b : Repo) : Bool :=
  b.star_count ≤ a.star_count

/-- Embedding of the order in which `list_repos` (src/main.rs lines
140-152) prints the repositories: `itertools::sorted_by` collects into a
`Vec` and runs the stable standard-library sort with the comparator
above; a stable sort under a total transitive comparator is uniquely
determined, so it is `List.mergeSort`. -/
def display_order (rs : List Repo) : List Repo :=
  rs.mergeSort display_le

/-! ## Concrete fixtures (worlds and bodies used by witnesses and
counterexamples) -/

/-- A raw API response body: a one-element JSON array with the four
fields the program consumes. -/
def sampleBody : String :=
  "[\x7b\"name\":\"a\",\"html_url\":\"u\",\"description\":\"d\",\"stargazers_count\":3\x7d]"

/-- The repo encoded in `sampleBody`. -/
def sampleRepo : Repo := { name := "a", url := "u", description := "d", star_count := 3 }

/-- A world whose cache already holds `sampleBody` for user `alice`,
with the credential variable unset. -/
def hitWorld : World :=
  { fs := { cacheFiles := some [("alice", sampleBody)], outFiles := [] },
    envToken := none, http := fun _ => .noConnection,
    writeFails := false, createDirFails := false, removeFails := false }

/-- A world with an empty cache directory and the credential variable
unset. -/
def missWorld : World :=
  { fs := { cacheFiles := some [], outFiles := [] },
    envToken := none, http := fun _ => .noConnection,
    writeFails := false, createDirFails := false, removeFails := false }

/-- A world with an empty cache directory, a token, and a healthy
network returning `sampleBody` with status 200. -/
def netWorld : World :=
  { fs := { cacheFiles := some [], outFiles := [] },
    envToken := some "token",
    http := fun _ => .response 200 sampleBody,
    writeFails := false, createDirFails := false, removeFails := false }

/-- A world with a cached entry for `alice`, a token, and a healthy
network, used to exercise `clear_cache` followed by a fetch. -/
def clearWorld : World :=
  { fs := { cacheFiles := some [("alice", sampleBody)], outFiles := [] },
    envToken := some "token",
    http := fun _ => .response 200 sampleBody,
    writeFails := false, createDirFails := false, removeFails := false }

/-- A world in which `fs::write` and `fs::remove_dir_all` fail, the
cache is empty, and the network is healthy. -/
def failWorld : World :=
  { fs := { cacheFiles := some [], outFiles := [] },
    envToken := some "token",
    http := fun _ => .response 200 sampleBody,
    writeFails := true, createDirFails := false, removeFails := true }

/-- An HTTP body that is valid JSON but not a repo list (an object at
the top level). -/
def objBody : String := "\x7b\x7d"

/-- A world with an empty cache, a token, and a network returning
`objBody` with status 200, so deserialization fails after the fetch. -/
def badBodyWorld : World :=
  { fs := { cacheFiles := some [], outFiles := [] },
    envToken := some "token",
    http := fun _ => .response 200 objBody,
    writeFails := false, createDirFails := false, removeFails := false }

/-- The JSON value of the one well-formed element of `badDescBody`. -/
def goodElem : Json :=
  .obj [("name", .str "a"), ("html_url", .str "u"),
        ("description", .str "d"), ("stargazers_count", .num 3)]

/-- The members of the second element of `badDescBody`, which carries no
`description` key. -/
def badElemFields : List (String × Json) :=
  [("name", .str "x"), ("html_url", .str "y"), ("stargazers_count", .num 1)]

/-- A cached body holding a two-element repo list whose second element
has no `description` field. -/
def badDescBody : String :=
  "[\x7b\"name\":\"a\",\"html_url\":\"u\",\"description\":\"d\",\"stargazers_count\":3\x7d,\x7b\"name\":\"x\",\"html_url\":\"y\",\"stargazers_count\":1\x7d]"

/-- A world whose cache holds `badDescBody` for user `alice`. -/
def badDescWorld : World :=
  { fs := { cacheFiles := some [("alice", badDescBody)], outFiles := [] },
    envToken := some "token", http := fun _ => .noConnection,
    writeFails := false, createDirFails := false, removeFails := false }

/-- An unsorted two-element repo list used to exercise the export
branch. -/
def sampleRepos : List Repo :=
  [{ name := "beta", url := "https://example.org/b", description := "second", star_count := 2 },
   { name := "alpha", url := "https://example.org/a", description := "first", star_count := 5 }]

/-- A world with no cache directory and a healthy filesystem, used for
the export branch. -/
def exportWorld : World :=
  { fs := { cacheFiles := none, outFiles := [] }, envToken := none,
    http := fun _ => .noConnection,
    writeFails := false, createDirFails := false, removeFails := false }

/-! ## Helper lemmas -/

theorem display_le_trans : ∀ (a b c : Repo),
    display_le a b → display_le b c → display_le a c := by
  intro a b c hab hbc
  simp only [display_le, decide_eq_true_eq] at *
  omega

theorem display_le_total : ∀ (a b : Repo), display_le a b || display_le b a := by
  intro a b
  simp only [display_le, Bool.or_eq_true, decide_eq_true_eq]
  omega

/-- Stability of the display sort, phrased through filters: the
subsequence of repositories with any given star count is untouched. -/
theorem filter_star_mergeSort (c : Nat) :
    ∀ rs : List Repo,
      (rs.mergeSort display_le).filter (fun r => r.star_count == c) =
        rs.filter (fun r => r.star_count == c)
  | [] => by simp
  | a :: l => by
    obtain ⟨l₁, l₂, h₁, h₂, h₃⟩ :=
      List.mergeSort_cons display_le_trans display_le_total a l
    have ih := filter_star_mergeSort c l
    rw [h₂, List.filter_append] at ih
    rw [h₁, List.filter_append, List.filter_cons, List.filter_cons]
    by_cases hc : a.star_count = c
    · have hnil : l₁.filter (fun r => r.star_count == c) = [] := by
        rw [List.filter_eq_nil_iff]
        intro b hb
        have hb' := h₃ b hb
        simp only [display_le, Bool.not_eq_true'] at hb'
        simp only [beq_iff_eq]
        have : ¬ b.star_count ≤ a.star_count := by
          simpa using hb'
        omega
      rw [hnil] at ih ⊢
      simp only [List.nil_append] at ih
      simp [hc, ih]
    · simp only [beq_iff_eq, hc, if_false, decide_eq_true_eq, if_neg]
      simpa [hc] using ih

theorem lookup_setEntry_self (m : List (String × String)) (k v : String) :
    lookupEntry (setEntry m k v) k = some v := by
  induction m with
  | nil => simp [setEntry, lookupEntry]
  | cons p rest ih =>
    obtain ⟨k', v'⟩ := p
    by_cases h : k' = k
    · simp [setEntry, lookupEntry, h]
    · simp only [setEntry, lookupEntry, beq_iff_eq, h, if_false, if_neg]
      simpa [h] using ih

/-- Behaviour of `get_starred_repos_for_user` on a cache hit: no events
(in particular no network request), the filesystem untouched, and the
result exactly the deserialization of the cached body. -/
theorem get_hit_behavior (w : World) (user s : String)
    (hs : get_cache w.fs user = some s) :
    (get_starred_repos_for_user w user).events = [] ∧
    (get_starred_repos_for_user w user).result =
      (from_str_repos s).mapError GetErr.deserialize ∧
    (get_starred_repos_for_user w user).fs = w.fs := by
  cases h : from_str_repos s <;>
    simp [get_starred_repos_for_user, hs, h, Except.mapError]

/-- Reading back a freshly written cache entry (successful filesystem
operations): the body is returned unchanged and the cache directory is
sure to exist afterwards. -/
theorem write_cache_reads_back (w : World) (user body : String)
    (hw : w.writeFails = false) (hc : w.createDirFails = false) :
    get_cache (write_cache w user body).1 user = some body ∧
    (write_cache w user body).1.cacheFiles.isSome = true := by
  cases hdir : w.fs.cacheFiles <;>
    simp [write_cache, get_cache, hw, hc, hdir, lookup_setEntry_self]

/-- A failing `fs::write` in `write_cache` is logged and leaves every
cache entry as it was. -/
theorem write_cache_fail_logs (w : World) (user body : String)
    (hw : w.writeFails = true) :
    Event.logWriteCacheErr user ∈ (write_cache w user body).2 ∧
    ∀ u, get_cache (write_cache w user body).1 u = get_cache w.fs u := by
  cases hdir : w.fs.cacheFiles with
  | none =>
    cases hcd : w.createDirFails <;>
      simp [write_cache, get_cache, hw, hcd, hdir, lookupEntry]
  | some files =>
    simp [write_cache, get_cache, hw, hdir]

/-- Behaviour of `get_starred_repos_for_user` on a cache miss when the
token is present: the request is sent, whatever the network outcome. -/
theorem get_miss_attempts_network (w : World) (user t : String)
    (hmiss : get_cache w.fs user = none) (htok : w.envToken = some t) :
    Event.netRequest (apiUrl user) ∈ (get_starred_repos_for_user w user).events := by
  simp only [get_starred_repos_for_user, hmiss, htok]
  cases hh : w.http (apiUrl user) with
  | noConnection => simp [fetch, hh]
  | response status body =>
    cases hst : isSuccessStatus status with
    | false => simp [fetch, hh, hst]
    | true =>
      cases hde : from_str_repos body <;> simp [fetch, hh, hst, hde]


theorem getStrField_ok_iff (fields : List (String × Json)) (key s : String) :
    getStrField fields key = .ok s ↔ lookupField fields key = some (.str s) := by
  unfold getStrField
  cases h : lookupField fields key with
  | none => simp
  | some v => cases v <;> simp

theorem getU64Field_ok_iff (fields : List (String × Json)) (key : String) (n : Nat) :
    getU64Field fields key = .ok n ↔
      ∃ m : Int, lookupField fields key = some (.num m) ∧
        0 ≤ m ∧ m < 2 ^ 64 ∧ n = m.toNat := by
  unfold getU64Field
  cases h : lookupField fields key with
  | none => simp
  | some v =>
    cases v with
    | num m =>
      by_cases hb : 0 ≤ m ∧ m < (2 : Int) ^ 64
      · simp only [hb, if_true, if_pos]
        constructor
        · intro he
          exact ⟨m, rfl, hb.1, hb.2, by injection he with he'; exact he'.symm⟩
        · rintro ⟨m', hm', -, -, he⟩
          injection hm' with hm''
          injection hm'' with hm₃
          subst hm₃
          exact congrArg Except.ok he.symm
      · simp only [hb, if_false, if_neg, not_false_iff]
        constructor
        · intro he
          cases he
        · rintro ⟨m', hm', h0, hlt, -⟩
          injection hm' with hm''
          injection hm'' with hm₃
          subst hm₃
          exact absurd ⟨h0, hlt⟩ hb
    | null => simp
    | bool b => simp
    | str s => simp
    | arr es => simp
    | obj fs => simp

/-- Characterization of a successful `Repo` deserialization: the input
is an object carrying all four required fields with the required
types. -/
theorem decodeRepo_ok_shape (j : Json) (r : Repo) (h : decodeRepo j = .ok r) :
    ∃ fields, j = .obj fields ∧
      lookupField fields "name" = some (.str r.name) ∧
      lookupField fields "html_url" = some (.str r.url) ∧
      lookupField fields "description" = some (.str r.description) ∧
      ∃ m : Int, lookupField fields "stargazers_count" = some (.num m) ∧
        0 ≤ m ∧ m < 2 ^ 64 ∧ r.star_count = m.toNat := by
  cases j with
  | obj fields =>
    refine ⟨fields, rfl, ?_⟩
    simp only [decodeRepo] at h
    cases h1 : getStrField fields "name" with
    | error e => rw [h1] at h; simp at h
    | ok name =>
    rw [h1] at h
    cases h2 : getStrField fields "html_url" with
    | error e => rw [h2] at h; simp at h
    | ok url =>
    rw [h2] at h
    cases h3 : getStrField fields "description" with
    | error e => rw [h3] at h; simp at h
    | ok desc =>
    rw [h3] at h
    cases h4 : getU64Field fields "stargazers_count" with
    | error e => rw [h4] at h; simp at h
    | ok sc =>
    rw [h4] at h
    simp only [Except.ok.injEq] at h
    subst h
    obtain ⟨m, hm, h0, hlt, he⟩ := (getU64Field_ok_iff fields "stargazers_count" sc).mp h4
    exact ⟨(getStrField_ok_iff fields "name" name).mp h1,
      (getStrField_ok_iff fields "html_url" url).mp h2,
      (getStrField_ok_iff fields "description" desc).mp h3,
      m, hm, h0, hlt, he⟩
  | null => cases h
  | bool b => cases h
  | num n => cases h
  | str s => cases h
  | arr es => cases h

/-- An object without a string `description` (key absent or `null`)
never deserializes as a `Repo`. -/
theorem decodeRepo_error_of_bad_description (fields : List (String × Json))
    (hdesc : lookupField fields "description" = none ∨
      lookupField fields "description" = some .null) :
    ∃ e, decodeRepo (.obj fields) = .error e := by
  cases hd : decodeRepo (.obj fields) with
  | error e => exact ⟨e, rfl⟩
  | ok r =>
    obtain ⟨fields', hf, -, -, hdesc', -⟩ := decodeRepo_ok_shape _ _ hd
    injection hf with hf'
    subst hf'
    rcases hdesc with h | h <;> rw [h] at hdesc' <;> cases hdesc'

/-- List deserialization fails whenever some element fails, the elements
before it being individually well-formed. -/
theorem decodeRepoList_error_append (pre : List Json) (bad : Json) (post : List Json)
    (hpre : ∀ j ∈ pre, (decodeRepo j).isOk = true)
    (e : DeErr) (hbad : decodeRepo bad = .error e) :
    ∃ e', decodeRepoList (pre ++ bad :: post) = .error e' := by
  induction pre with
  | nil => exact ⟨e, by simp [decodeRepoList, hbad]⟩
  | cons a rest ih =>
    have ha := hpre a (by simp)
    cases hda : decodeRepo a with
    | error e'' => rw [hda] at ha; cases ha
    | ok r =>
      obtain ⟨e', he'⟩ := ih (fun j hj => hpre j (by simp [hj]))
      exact ⟨e', by simp [decodeRepoList, hda, he']⟩

/-! ## Claims -/

/-- Claim C2: `list_repos` displays every list of repos as a permutation
of the input that is sorted by star count descending (every later repo
has a star count no greater than every earlier one), and the sort is
stable: the repos having any fixed star count keep their original
relative order. -/
theorem display_order_sorted_and_stable (rs : List Repo) :
    List.Perm (display_order rs) rs ∧
    List.Pairwise (fun a b => b.star_count ≤ a.star_count) (display_order rs) ∧
    ∀ c : Nat, (display_order rs).filter (fun r => r.star_count == c) =
      rs.filter (fun r => r.star_count == c) := by
  refine ⟨List.mergeSort_perm rs display_le, ?_, fun c => filter_star_mergeSort c rs⟩
  have h := List.sorted_mergeSort display_le_trans display_le_total rs
  exact h.imp (fun hab => by simpa [display_le] using hab)

/-- Claim C5: writing a body to the cache and then reading it back for
the same user yields the identical content, and the write first ensures
the cache directory exists (stated under successful filesystem
operations; failures are the subject of claim C8). -/
theorem write_cache_roundtrip (w : World) (user body : String)
    (hw : w.writeFails = false) (hc : w.createDirFails = false) :
    get_cache (write_cache w user body).1 user = some body ∧
    (write_cache w user body).1.cacheFiles.isSome = true :=
  write_cache_reads_back w user body hw hc

/-- Witness for `write_cache_roundtrip` at a concrete world, user and
body. -/
theorem write_cache_roundtrip_witness :
    get_cache (write_cache missWorld "alice" "body text").1 "alice" = some "body text" ∧
    (write_cache missWorld "alice" "body text").1.cacheFiles.isSome = true :=
  write_cache_roundtrip missWorld "alice" "body text" rfl rfl

/-- Claim C6: after `clear_cache` succeeds the cache directory is gone,
so no user has a cached file any more, and a subsequent get for any user
(with the token present) sends a network request instead of answering
from the cache. -/
theorem clear_cache_forces_network (w : World)
    (hr : w.removeFails = false) (hd : w.fs.cacheFiles.isSome = true) :
    (clear_cache w).1.cacheFiles = none ∧
    ∀ user, get_cache (clear_cache w).1 user = none ∧
      ∀ t, w.envToken = some t →
        Event.netRequest (apiUrl user) ∈
          (get_starred_repos_for_user { w with fs := (clear_cache w).1 } user).events := by
  have hcond : (w.removeFails || w.fs.cacheFiles.isNone) = false := by
    rw [hr]
    cases hx : w.fs.cacheFiles
    · rw [hx] at hd; simp at hd
    · simp
  have hnone : (clear_cache w).1.cacheFiles = none := by
    simp [clear_cache, hcond]
  refine ⟨hnone, fun user => ⟨by simp [get_cache, hnone], fun t htok => ?_⟩⟩
  exact get_miss_attempts_network { w with fs := (clear_cache w).1 } user t
    (by simp [get_cache, hnone]) (by simpa using htok)

/-- Witness for `clear_cache_forces_network` at a concrete world with a
populated cache. -/
theorem clear_cache_forces_network_witness :
    (clear_cache clearWorld).1.cacheFiles = none ∧
    Event.netRequest (apiUrl "alice") ∈
      (get_starred_repos_for_user
        { clearWorld with fs := (clear_cache clearWorld).1 } "alice").events := by
  obtain ⟨h1, h2⟩ := clear_cache_forces_network clearWorld rfl rfl
  exact ⟨h1, (h2 "alice").2 "token" rfl⟩

/-- Counterexample to claim C3 as stated: with the credential environment
variable unset but a cache file present for the user, `get` succeeds, so
it does not fail with a missing-credential error. -/
theorem get_without_token_can_succeed :
    hitWorld.envToken = none ∧
    (get_starred_repos_for_user hitWorld "alice").result = .ok [sampleRepo] :=
  ⟨rfl, rfl⟩

/-- Claim C3 (amended): when the credential environment variable is unset
and the user has no cached file, `get` fails with the missing-credential
error and produces no events at all, in particular no network request. -/
theorem get_without_token_fails_before_network (w : World) (user : String)
    (henv : w.envToken = none) (hmiss : get_cache w.fs user = none) :
    (get_starred_repos_for_user w user).result = .error .missingToken ∧
    ∀ u, Event.netRequest u ∉ (get_starred_repos_for_user w user).events := by
  simp [get_starred_repos_for_user, hmiss, henv]

/-- Witness for `get_without_token_fails_before_network` at a concrete
world. -/
theorem get_without_token_witness :
    (get_starred_repos_for_user missWorld "alice").result = .error .missingToken ∧
    ∀ u, Event.netRequest u ∉ (get_starred_repos_for_user missWorld "alice").events :=
  get_without_token_fails_before_network missWorld "alice" rfl rfl

/-- Counterexample to claim C4 as stated: a world with no cached file for
the user in which no network fetch is attempted (the credential variable
being unset). -/
theorem cache_miss_without_token_no_fetch :
    get_cache missWorld.fs "alice" = none ∧
    ∀ u, Event.netRequest u ∉ (get_starred_repos_for_user missWorld "alice").events := by
  refine ⟨rfl, fun u => ?_⟩
  have h : (get_starred_repos_for_user missWorld "alice").events = [] := rfl
  simp [h]

/-- Claim C4 (amended): a cache hit is answered by deserializing the
cached body, with no network call; on a cache miss a network fetch is
attempted provided the credential environment variable is set. -/
theorem get_cache_branching (w : World) (user : String) :
    (∀ s, get_cache w.fs user = some s →
      (∀ u, Event.netRequest u ∉ (get_starred_repos_for_user w user).events) ∧
      (get_starred_repos_for_user w user).result =
        (from_str_repos s).mapError GetErr.deserialize) ∧
    (get_cache w.fs user = none → ∀ t, w.envToken = some t →
      Event.netRequest (apiUrl user) ∈ (get_starred_repos_for_user w user).events) := by
  constructor
  · intro s hs
    obtain ⟨he, hr, _⟩ := get_hit_behavior w user s hs
    exact ⟨by simp [he], hr⟩
  · intro hmiss t htok
    exact get_miss_attempts_network w user t hmiss htok

/-- Witness for `get_cache_branching`: the hit half at `hitWorld` and the
miss half at `netWorld`. -/
theorem get_cache_branching_witness :
    (∀ u, Event.netRequest u ∉ (get_starred_repos_for_user hitWorld "alice").events) ∧
    Event.netRequest (apiUrl "alice") ∈
      (get_starred_repos_for_user netWorld "alice").events :=
  ⟨((get_cache_branching hitWorld "alice").1 sampleBody rfl).1,
   (get_cache_branching netWorld "alice").2 rfl "token" rfl⟩

/-- Claim C7: the API-client section fails with a connection error
exactly when the request cannot be sent, fails with a status error
exactly when the response status is not a success, and otherwise returns
the raw response body text. -/
theorem fetch_error_characterization (w : World) (user token : String) :
    ((fetch w user token).1 = .error .connection ↔
      w.http (apiUrl user) = .noConnection) ∧
    ((∃ s, (fetch w user token).1 = .error (.badStatus (apiUrl user) s)) ↔
      (∃ s b, w.http (apiUrl user) = .response s b ∧ isSuccessStatus s = false)) ∧
    (∀ b, (fetch w user token).1 = .ok b ↔
      (∃ s, w.http (apiUrl user) = .response s b ∧ isSuccessStatus s = true)) := by
  cases hh : w.http (apiUrl user) with
  | noConnection => simp [fetch, hh]
  | response status body =>
    cases hst : isSuccessStatus status with
    | false =>
      refine ⟨by simp [fetch, hh, hst], ?_, by simp [fetch, hh, hst]⟩
      constructor
      · intro _
        exact ⟨status, body, rfl, hst⟩
      · intro _
        exact ⟨status, by simp [fetch, hh, hst]⟩
    | true =>
      simp [fetch, hh, hst]
      intro b
      constructor
      · intro hb
        exact ⟨status, ⟨rfl, hb⟩, hst⟩
      · rintro ⟨s, ⟨-, hb⟩, -⟩
        exact hb

/-- Claim C8: filesystem failures in the cache write, the cache clear and
the file exports are logged and swallowed.  Each operation is a total
function into a new state plus log events (there is no error channel to
the caller): a failed cache write is logged and leaves every cache entry
unchanged, a failed clear is logged and leaves the filesystem unchanged,
a failed export run still completes both branches while logging each
failure, and `get` still returns its repos to the caller when only the
cache write failed. -/
theorem fs_failures_swallowed (w : World) (user body tp jp : String) (repos : List Repo)
    (hw : w.writeFails = true) (hr : w.removeFails = true) :
    (Event.logWriteCacheErr user ∈ (write_cache w user body).2 ∧
      ∀ u, get_cache (write_cache w user body).1 u = get_cache w.fs u) ∧
    clear_cache w = (w.fs, [Event.logClearErr]) ∧
    (export_repos w repos (some tp) (some jp)).2 =
      [Event.logSerializeTomlErr, Event.logWriteFileErr jp] ∧
    (∀ t status bdy rs, get_cache w.fs user = none → w.envToken = some t →
      w.http (apiUrl user) = .response status bdy → isSuccessStatus status = true →
      from_str_repos bdy = .ok rs →
      (get_starred_repos_for_user w user).result = .ok rs ∧
      Event.logWriteCacheErr user ∈ (get_starred_repos_for_user w user).events) := by
  refine ⟨write_cache_fail_logs w user body hw, ?_, ?_, ?_⟩
  · simp [clear_cache, hr]
  · simp [export_repos, toml_to_string, tomlDocRender, json_to_string, hw]
  · intro t status bdy rs hmiss htok hhttp hst hde
    have hwc := write_cache_fail_logs w user bdy hw
    simp only [get_starred_repos_for_user, hmiss, htok, fetch, hhttp, hst, if_true, hde]
    exact ⟨trivial, List.mem_append.mpr (Or.inr hwc.1)⟩

/-- Witness for `fs_failures_swallowed` at a concrete world with failing
`fs::write` and `fs::remove_dir_all`. -/
theorem fs_failures_swallowed_witness :
    clear_cache failWorld = (failWorld.fs, [Event.logClearErr]) ∧
    (get_starred_repos_for_user failWorld "alice").result = .ok [sampleRepo] ∧
    Event.logWriteCacheErr "alice" ∈ (get_starred_repos_for_user failWorld "alice").events := by
  have h := fs_failures_swallowed failWorld "alice" "b" "t.toml" "j.json" [] rfl rfl
  have hd := h.2.2.2 "token" 200 sampleBody [sampleRepo] rfl rfl rfl rfl rfl
  exact ⟨h.2.1, hd.1, hd.2⟩

/-- Claim C9: on a cache miss with a successful response whose body does
not deserialize, the raw body is written to the cache before
deserialization is attempted, so the cache file is created or
overwritten even though `get` then fails with a deserialization
error. -/
theorem cache_written_before_deserialize (w : World) (user t : String)
    (hmiss : get_cache w.fs user = none) (htok : w.envToken = some t)
    (status : Nat) (body : String)
    (hhttp : w.http (apiUrl user) = .response status body)
    (hst : isSuccessStatus status = true)
    (e : DeErr) (hde : from_str_repos body = .error e)
    (hw : w.writeFails = false) (hc : w.createDirFails = false) :
    (get_starred_repos_for_user w user).result = .error (.deserialize e) ∧
    get_cache (get_starred_repos_for_user w user).fs user = some body := by
  have hwc := write_cache_reads_back w user body hw hc
  simp only [get_starred_repos_for_user, hmiss, htok, fetch, hhttp, hst, if_true, hde]
  exact ⟨trivial, hwc.1⟩

/-- Witness for `cache_written_before_deserialize` at a concrete world
whose network returns a JSON object rather than a list. -/
theorem cache_written_before_deserialize_witness :
    (get_starred_repos_for_user badBodyWorld "alice").result =
      .error (.deserialize .notAnArray) ∧
    get_cache (get_starred_repos_for_user badBodyWorld "alice").fs "alice" = some objBody :=
  cache_written_before_deserialize badBodyWorld "alice" "token" rfl rfl 200 objBody
    rfl rfl .notAnArray rfl rfl rfl

/-- Claim C10: a successful `Repo` deserialization requires an object
carrying `name`, `html_url` and `description` as strings and
`stargazers_count` as an unsigned 64-bit integer; and when a cached body
parses as an array in which one element is an object whose `description`
is missing or `null`, `get` fails with a deserialization error for the
whole list even if every other element is well-formed. -/
theorem repo_fields_required_bad_description_fails_list :
    (∀ j r, decodeRepo j = .ok r → ∃ fields, j = .obj fields ∧
      lookupField fields "name" = some (.str r.name) ∧
      lookupField fields "html_url" = some (.str r.url) ∧
      lookupField fields "description" = some (.str r.description) ∧
      ∃ m : Int, lookupField fields "stargazers_count" = some (.num m) ∧
        0 ≤ m ∧ m < 2 ^ 64 ∧ r.star_count = m.toNat) ∧
    (∀ (w : World) (user s : String) (pre post : List Json)
        (fields : List (String × Json)),
      get_cache w.fs user = some s →
      jsonParse s = some (.arr (pre ++ .obj fields :: post)) →
      (lookupField fields "description" = none ∨
        lookupField fields "description" = some .null) →
      (∀ j ∈ pre, (decodeRepo j).isOk = true) →
      ∃ e, (get_starred_repos_for_user w user).result =
        .error (.deserialize e)) := by
  refine ⟨decodeRepo_ok_shape, ?_⟩
  intro w user s pre post fields hcache hparse hdesc hpre
  obtain ⟨e, he⟩ := decodeRepo_error_of_bad_description fields hdesc
  obtain ⟨e', he'⟩ := decodeRepoList_error_append pre _ post hpre e he
  have hfs : from_str_repos s = .error e' := by
    simp [from_str_repos, hparse, decodeRepos, he']
  obtain ⟨-, hres, -⟩ := get_hit_behavior w user s hcache
  rw [hfs] at hres
  exact ⟨e', hres⟩

/-- Witness for `repo_fields_required_bad_description_fails_list` at a
concrete cached body whose second element lacks `description`. -/
theorem repo_fields_required_witness :
    ∃ e, (get_starred_repos_for_user badDescWorld "alice").result =
      .error (.deserialize e) :=
  repo_fields_required_bad_description_fails_list.2 badDescWorld "alice" badDescBody
    [goodElem] [] badElemFields rfl rfl (Or.inl rfl) (by decide)

set_option maxRecDepth 40000 in
/-- Claim C1 (the code evaluated at the failing input): the TOML export
can never succeed, because `toml::to_string` rejects the root-level
sequence `Vec<Repo>` for every repo list; at the concrete input
`sampleRepos` the export branch writes no TOML file and logs the
serialization failure, while the JSON export of the same (unsorted) list
does write a file whose content deserializes back to the original record
set, field for field. -/
theorem export_toml_fails_json_roundtrips :
    (∀ rs : List Repo, toml_to_string rs = .error ()) ∧
    lookupEntry (export_repos exportWorld sampleRepos
      (some "out.toml") (some "out.json")).1.outFiles "out.toml" = none ∧
    Event.logSerializeTomlErr ∈ (export_repos exportWorld sampleRepos
      (some "out.toml") (some "out.json")).2 ∧
    (∃ s, lookupEntry (export_repos exportWorld sampleRepos
        (some "out.toml") (some "out.json")).1.outFiles "out.json" = some s ∧
      from_str_repos s = .ok sampleRepos) := by
  refine ⟨fun rs => rfl, rfl, ?_, ?_⟩
  · have h : (export_repos exportWorld sampleRepos
        (some "out.toml") (some "out.json")).2 = [Event.logSerializeTomlErr] := rfl
    rw [h]
    exact List.mem_singleton.mpr rfl
  · exact ⟨Json.render (encodeRepos sampleRepos), rfl, rfl⟩

end StarredRepos
